import Mathlib

/-!
Verification of the serverless Yjs WebSocket relay (persistence provider,
binary message codec, and session handler).

The persistence provider (Redis-backed) is modelled with the CRDT merge
abstracted as a join-semilattice on finite sets: an update blob carries a set
of CRDT items, `Y.applyUpdate` is set union (commutative, idempotent,
associative — the CRDT property the code relies on externally), and
`Y.encodeStateAsUpdate` returns the document's item set.  `doc.store.clients.size === 0`
holds exactly when the item set is empty.
-/

/-- Yjs document state under the join-semilattice abstraction: the set of CRDT
items the document holds. -/
abbrev DocState := Finset ℕ

/-- Yjs update blob under the same abstraction: the set of items it carries. -/
abbrev UpdateBlob := Finset ℕ

/-- Embeds `Y.applyUpdate doc u`: merging an update into a document unions its
items into the document state. -/
def applyUpdate (doc : DocState) (u : UpdateBlob) : DocState := doc ∪ u

/-- Embeds the `for (const update of updates) Y.applyUpdate(doc, update)` loop:
fold the updates into the document in append order. -/
def applyUpdates (doc : DocState) (us : List UpdateBlob) : DocState :=
  us.foldl applyUpdate doc

/-- Redis contents for one document: the optional `yjs:{doc}:snapshot` value and
the `yjs:{doc}:updates` list. -/
structure RedisDocState where
  snapshot : Option UpdateBlob
  updates : List UpdateBlob
deriving DecidableEq

/-- Embeds the shared load sequence of `getState` and `compact`: start from a
fresh `Y.Doc`, apply the snapshot if present, then apply every logged update in
append order. -/
def loadDoc (d : RedisDocState) : DocState :=
  applyUpdates (match d.snapshot with
    | some s => applyUpdate ∅ s
    | none => ∅) d.updates

/-- Embeds `getState`: merge snapshot and pending updates, return `null` when
the resulting document is empty (`doc.store.clients.size === 0`), else the
merged state. -/
def getState (d : RedisDocState) : Option UpdateBlob :=
  let doc := loadDoc d
  if doc = ∅ then none else some doc

/-- Embeds `compact`: merge snapshot and full log into a new snapshot, store it
and clear the update list (pipelined, so modelled as one state change). -/
def compact (d : RedisDocState) : RedisDocState :=
  { snapshot := some (loadDoc d), updates := [] }

/-- Embeds `storeUpdate`: append the update to the log (`rpush`), then if the
threshold is positive and the log length (`llen` after the push) has reached
it, compact. -/
def storeUpdate (compactionThreshold : ℕ) (d : RedisDocState) (u : UpdateBlob) :
    RedisDocState :=
  let d1 : RedisDocState := { d with updates := d.updates ++ [u] }
  if 0 < compactionThreshold ∧ compactionThreshold ≤ d1.updates.length then
    compact d1
  else
    d1

theorem applyUpdates_append (doc : DocState) (xs ys : List UpdateBlob) :
    applyUpdates doc (xs ++ ys) = applyUpdates (applyUpdates doc xs) ys := by
  simp [applyUpdates, List.foldl_append]

theorem loadDoc_some_eq (s : UpdateBlob) (us : List UpdateBlob) :
    loadDoc ⟨some s, us⟩ = applyUpdates s us := by
  simp [loadDoc, applyUpdate]

/-- C1: compaction replaces the snapshot with the merge of the old snapshot and
the whole log in append order and empties the log; consequently, for every
split point `k` of a sequence of updates, compacting after the first `k`
updates and then applying the rest yields the same state as applying the whole
sequence directly. -/
theorem compact_correct :
    (∀ d : RedisDocState,
      (compact d).snapshot = some (loadDoc d) ∧ (compact d).updates = []) ∧
    (∀ (s : Option UpdateBlob) (U : List UpdateBlob) (k : ℕ), k ≤ U.length →
      loadDoc ⟨(compact ⟨s, U.take k⟩).snapshot, U.drop k⟩ = loadDoc ⟨s, U⟩) := by
  constructor
  · intro d
    exact ⟨rfl, rfl⟩
  · intro s U k _
    rw [compact, loadDoc_some_eq]
    cases s with
    | none =>
      show applyUpdates (applyUpdates ∅ (U.take k)) (U.drop k) = applyUpdates ∅ U
      rw [← applyUpdates_append, List.take_append_drop]
    | some s0 =>
      show applyUpdates (applyUpdates (applyUpdate ∅ s0) (U.take k)) (U.drop k) =
        applyUpdates (applyUpdate ∅ s0) U
      rw [← applyUpdates_append, List.take_append_drop]

/-- Witness for `compact_correct` at a concrete document and split point. -/
theorem compact_correct_witness :
    (compact ⟨some {5}, [{1}, {2}]⟩).snapshot = some (loadDoc ⟨some {5}, [{1}, {2}]⟩) ∧
    (compact ⟨some {5}, [{1}, {2}]⟩).updates = [] ∧
    (1 : ℕ) ≤ ([{1}, {2}] : List UpdateBlob).length ∧
    loadDoc ⟨(compact ⟨some {5}, ([{1}, {2}] : List UpdateBlob).take 1⟩).snapshot,
        ([{1}, {2}] : List UpdateBlob).drop 1⟩ = loadDoc ⟨some {5}, [{1}, {2}]⟩ := by
  refine ⟨(compact_correct.1 ⟨some {5}, [{1}, {2}]⟩).1,
          (compact_correct.1 ⟨some {5}, [{1}, {2}]⟩).2, by decide, ?_⟩
  exact compact_correct.2 (some {5}) [{1}, {2}] 1 (by decide)

/-- C2: with a positive threshold `t`, the `storeUpdate` call that makes the log
length reach `t` compacts synchronously, so it returns with an empty log and a
snapshot holding the merge of everything stored so far; with threshold 0 no
auto-compaction ever happens; and with `t = 3`, after the third `storeUpdate`
on a fresh document the log is empty and the snapshot merges all three
updates. -/
theorem storeUpdate_threshold :
    (∀ (t : ℕ) (d : RedisDocState) (u : UpdateBlob), 0 < t →
      d.updates.length + 1 = t →
      (storeUpdate t d u).updates = [] ∧
      (storeUpdate t d u).snapshot =
        some (loadDoc { d with updates := d.updates ++ [u] })) ∧
    (∀ (d : RedisDocState) (u : UpdateBlob),
      storeUpdate 0 d u = { d with updates := d.updates ++ [u] }) ∧
    (∀ u1 u2 u3 : UpdateBlob,
      (storeUpdate 3 (storeUpdate 3 (storeUpdate 3 ⟨none, []⟩ u1) u2) u3).updates = [] ∧
      (storeUpdate 3 (storeUpdate 3 (storeUpdate 3 ⟨none, []⟩ u1) u2) u3).snapshot =
        some (u1 ∪ u2 ∪ u3)) := by
  refine ⟨?_, ?_, ?_⟩
  · intro t d u ht hlen
    have hle : t ≤ d.updates.length + 1 := by omega
    refine ⟨?_, ?_⟩ <;> simp [storeUpdate, compact, ht, hle]
  · intro d u
    simp [storeUpdate]
  · intro u1 u2 u3
    constructor
    · simp [storeUpdate, compact]
    · simp [storeUpdate, compact, loadDoc, applyUpdates, applyUpdate]

/-- Witness for `storeUpdate_threshold` at concrete thresholds and updates. -/
theorem storeUpdate_threshold_witness :
    ((0 : ℕ) < 2 ∧ (⟨none, [{7}]⟩ : RedisDocState).updates.length + 1 = 2 ∧
      (storeUpdate 2 ⟨none, [{7}]⟩ {8}).updates = [] ∧
      (storeUpdate 2 ⟨none, [{7}]⟩ {8}).snapshot =
        some (loadDoc ⟨none, [{7}, {8}]⟩)) ∧
    storeUpdate 0 ⟨none, [{7}]⟩ {8} = ⟨none, [{7}, {8}]⟩ ∧
    (storeUpdate 3 (storeUpdate 3 (storeUpdate 3 ⟨none, []⟩ {1}) {2}) {3}).updates = [] ∧
    (storeUpdate 3 (storeUpdate 3 (storeUpdate 3 ⟨none, []⟩ {1}) {2}) {3}).snapshot =
      some ({1} ∪ {2} ∪ {3}) := by
  have h1 := storeUpdate_threshold.1 2 ⟨none, [{7}]⟩ {8} (by decide) (by decide)
  have h2 := storeUpdate_threshold.2.1 (⟨none, [{7}]⟩ : RedisDocState) {8}
  have h3 := storeUpdate_threshold.2.2 {1} {2} {3}
  exact ⟨⟨by decide, by decide, h1.1, h1.2⟩, h2, h3.1, h3.2⟩

/-- C6: `getState` on a document with no snapshot and an empty update log
returns the absent sentinel (`null`), never an empty blob. -/
theorem getState_empty_doc : getState ⟨none, []⟩ = none := by
  simp [getState, loadDoc, applyUpdates]

/-!
Binary message codec (lib0 encoding/decoding as used by `yjs-ws-handler`).
Byte strings are modelled as `List ℕ` of byte values.  `writeVarUint` follows
lib0: emit `0x80 ||| (n % 128)` while more than 7 bits remain (for `m < 128`
the bitwise or with the continuation bit equals `128 + m`), then the final
低 byte; the reader accumulates `(byte % 128) * mult` with `mult` growing by
128 per byte.  Recursion is by fuel (`n` itself bounds the digit count) so the
definitions evaluate by `rfl`/`decide`.
-/

/-- Embeds the loop of lib0 `encoding.writeVarUint`; the fuel argument only
drives structural recursion (`n` steps always suffice since the value shrinks
by a factor of 128 each round). -/
def writeVarUintGo : ℕ → ℕ → List ℕ
  | 0, n => [n]
  | fuel + 1, n =>
    if 127 < n then (128 + n % 128) :: writeVarUintGo fuel (n / 128) else [n]

/-- Embeds lib0 `encoding.writeVarUint`. -/
def writeVarUint (n : ℕ) : List ℕ := writeVarUintGo n n

/-- Embeds the loop of lib0 `decoding.readVarUint`: accumulate the low 7 bits
of each byte scaled by the running multiplier; stop at the first byte without
the continuation bit; fail (`none`) on truncated input. -/
def readVarUintGo : List ℕ → ℕ → ℕ → Option (ℕ × List ℕ)
  | [], _, _ => none
  | b :: rest, acc, mult =>
    if b < 128 then some (acc + b % 128 * mult, rest)
    else readVarUintGo rest (acc + b % 128 * mult) (mult * 128)

/-- Embeds lib0 `decoding.readVarUint`. -/
def readVarUint (bs : List ℕ) : Option (ℕ × List ℕ) := readVarUintGo bs 0 1

/-- Embeds lib0 `encoding.writeVarUint8Array`: length prefix then raw bytes. -/
def writeVarUint8Array (bs : List ℕ) : List ℕ := writeVarUint bs.length ++ bs

/-- Embeds lib0 `decoding.readVarUint8Array`: read a length prefix, then that
many bytes; fail on truncation. -/
def readVarUint8Array (bs : List ℕ) : Option (List ℕ × List ℕ) :=
  match readVarUint bs with
  | none => none
  | some (len, rest) =>
    if len ≤ rest.length then some (rest.take len, rest.drop len) else none

/-- Embeds lib0 `encoding.writeVarString` for the ASCII strings this code
writes (the UTF-8 bytes, length-prefixed). -/
def writeVarString (s : List ℕ) : List ℕ := writeVarUint s.length ++ s

/-- Embeds lib0 `decoding.readVarString`, keeping the decoded string as its
UTF-8 bytes. -/
def readVarString (bs : List ℕ) : Option (List ℕ × List ℕ) := readVarUint8Array bs

theorem readVarUintGo_writeVarUintGo :
    ∀ (fuel n : ℕ), n ≤ fuel → ∀ (acc mult : ℕ) (rest : List ℕ),
      readVarUintGo (writeVarUintGo fuel n ++ rest) acc mult =
        some (acc + n * mult, rest) := by
  intro fuel
  induction fuel with
  | zero =>
    intro n hn acc mult rest
    have h0 : n = 0 := Nat.le_zero.mp hn
    subst h0
    simp [writeVarUintGo, readVarUintGo]
  | succ fuel ih =>
    intro n hn acc mult rest
    by_cases h : 127 < n
    · have hrec : n / 128 ≤ fuel := by
        have : n / 128 < n := Nat.div_lt_self (by omega) (by omega)
        omega
      have hmod : (128 + n % 128) % 128 = n % 128 := by omega
      simp only [writeVarUintGo, if_pos h, List.cons_append, readVarUintGo,
        if_neg (by omega : ¬ (128 + n % 128 < 128)), hmod,
        ih (n / 128) hrec]
      have key : acc + n % 128 * mult + n / 128 * (mult * 128) = acc + n * mult := by
        have hdiv : 128 * (n / 128) + n % 128 = n := Nat.div_add_mod n 128
        calc acc + n % 128 * mult + n / 128 * (mult * 128)
            = acc + (128 * (n / 128) + n % 128) * mult := by ring
          _ = acc + n * mult := by rw [hdiv]
      rw [key]
    · simp only [writeVarUintGo, if_neg h, List.cons_append, readVarUintGo,
        if_pos (by omega : n < 128), Nat.mod_eq_of_lt (by omega : n < 128),
        List.nil_append]

theorem readVarUint_writeVarUint (n : ℕ) (rest : List ℕ) :
    readVarUint (writeVarUint n ++ rest) = some (n, rest) := by
  have h := readVarUintGo_writeVarUintGo n n (Nat.le_refl n) 0 1 rest
  simpa [readVarUint, writeVarUint] using h

theorem readVarUint8Array_writeVarUint8Array (b rest : List ℕ) :
    readVarUint8Array (writeVarUint8Array b ++ rest) = some (b, rest) := by
  simp only [readVarUint8Array, writeVarUint8Array, List.append_assoc,
    readVarUint_writeVarUint]
  rw [if_pos (by simp : b.length ≤ (b ++ rest).length)]
  rw [List.take_left, List.drop_left]

theorem readVarString_writeVarString (s rest : List ℕ) :
    readVarString (writeVarString s ++ rest) = some (s, rest) :=
  readVarUint8Array_writeVarUint8Array s rest

/-- Outer message type `messageSync` from y-websocket. -/
def messageSync : ℕ := 0

/-- Outer message type `messageAwareness` from y-websocket. -/
def messageAwareness : ℕ := 1

/-- Outer message type `messageAuth` from y-websocket. -/
def messageAuth : ℕ := 2

/-- Outer message type `messageQueryAwareness` from y-websocket. -/
def messageQueryAwareness : ℕ := 3

/-- Sync sub-message type `messageYjsSyncStep1` from y-protocols. -/
def messageYjsSyncStep1 : ℕ := 0

/-- Sync sub-message type `messageYjsSyncStep2` from y-protocols. -/
def messageYjsSyncStep2 : ℕ := 1

/-- Sync sub-message type `messageYjsUpdate` from y-protocols. -/
def messageYjsUpdate : ℕ := 2

/-- Embeds `emptyStateVector = new Uint8Array([0])`. -/
def emptyStateVector : List ℕ := [0]

/-- UTF-8 bytes of the sentinel string written for a disconnected client. -/
def nullStateBytes : List ℕ := [110, 117, 108, 108]

/-- Embeds `encodeSyncStep1`. -/
def encodeSyncStep1 (stateVector : List ℕ) : List ℕ :=
  writeVarUint messageSync ++ writeVarUint messageYjsSyncStep1 ++
    writeVarUint8Array stateVector

/-- Embeds `encodeSyncStep2`. -/
def encodeSyncStep2 (update : List ℕ) : List ℕ :=
  writeVarUint messageSync ++ writeVarUint messageYjsSyncStep2 ++
    writeVarUint8Array update

/-- Embeds `encodeDisconnectAwareness` (the spec's `encodePresenceRemoval`):
inner payload declares one client with the clock incremented and the "null"
state sentinel, wrapped in an awareness envelope. -/
def encodeDisconnectAwareness (clientId clock : ℕ) : List ℕ :=
  writeVarUint messageAwareness ++
    writeVarUint8Array (writeVarUint 1 ++ writeVarUint clientId ++
      writeVarUint (clock + 1) ++ writeVarString nullStateBytes)

/-- Embeds `encodeAwarenessMessage`. -/
def encodeAwarenessMessage (awarenessUpdate : List ℕ) : List ℕ :=
  writeVarUint messageAwareness ++ writeVarUint8Array awarenessUpdate

/-- One entry returned by `parseAwarenessUpdate`. -/
structure AwarenessEntry where
  clientId : ℕ
  clock : ℕ
  isNull : Bool
deriving DecidableEq

/-- Embeds the entry-reading loop of `parseAwarenessUpdate` (`len` entries of
clientId, clock, state string; `isNull` marks the "null" sentinel). -/
def parseClients : ℕ → List ℕ → Option (List AwarenessEntry × List ℕ)
  | 0, bs => some ([], bs)
  | n + 1, bs =>
    match readVarUint bs with
    | none => none
    | some (clientId, r1) =>
      match readVarUint r1 with
      | none => none
      | some (clock, r2) =>
        match readVarString r2 with
        | none => none
        | some (state, r3) =>
          match parseClients n r3 with
          | none => none
          | some (entries, r4) =>
            some (⟨clientId, clock, state == nullStateBytes⟩ :: entries, r4)

/-- Embeds `parseAwarenessUpdate`: read the client count, then that many
entries; a decode failure throws in the source, modelled as `none`. -/
def parseAwarenessUpdate (update : List ℕ) : Option (List AwarenessEntry) :=
  match readVarUint update with
  | none => none
  | some (len, r) =>
    match parseClients len r with
    | none => none
    | some (entries, _) => some entries

/-- Decodes an awareness frame the way peers do: outer tag must be
`messageAwareness`, then the length-prefixed payload is parsed with
`parseAwarenessUpdate`. -/
def decodeAwarenessFrame (frame : List ℕ) : Option (List AwarenessEntry) :=
  match readVarUint frame with
  | none => none
  | some (t, rest) =>
    if t = messageAwareness then
      match readVarUint8Array rest with
      | none => none
      | some (payload, _) => parseAwarenessUpdate payload
    else none

theorem decodeAwarenessFrame_encodeDisconnectAwareness (clientId clock : ℕ) :
    decodeAwarenessFrame (encodeDisconnectAwareness clientId clock) =
      some [⟨clientId, clock + 1, true⟩] := by
  have h8 := readVarUint8Array_writeVarUint8Array
    (writeVarUint 1 ++ writeVarUint clientId ++ writeVarUint (clock + 1) ++
      writeVarString nullStateBytes) []
  rw [List.append_nil] at h8
  simp only [List.append_assoc] at h8
  have hstr := readVarString_writeVarString nullStateBytes []
  rw [List.append_nil] at hstr
  have hone : parseClients (0 + 1)
      (writeVarUint clientId ++ (writeVarUint (clock + 1) ++ writeVarString nullStateBytes)) =
      some ([⟨clientId, clock + 1, nullStateBytes == nullStateBytes⟩], []) := by
    simp only [parseClients, readVarUint_writeVarUint, hstr]
  rw [Nat.zero_add] at hone
  simp [decodeAwarenessFrame, encodeDisconnectAwareness, parseAwarenessUpdate,
    readVarUint_writeVarUint, h8, hone, List.append_assoc]

/-- C5: `encodePresenceRemoval(clientId, clock)` produces an awareness envelope
whose inner payload decodes, via the presence-entries decoder, to exactly one
entry with the same client id, clock incremented by one, and the removal
marker set. -/
theorem encodePresenceRemoval_decodes (clientId clock : ℕ) :
    decodeAwarenessFrame (encodeDisconnectAwareness clientId clock) =
      some [⟨clientId, clock + 1, true⟩] :=
  decodeAwarenessFrame_encodeDisconnectAwareness clientId clock

/-!
Decimal strings for connection metadata.  Pushpin metadata values are strings;
the handler writes `String(clientId)` / `String(clock)` and reads them back
with `parseInt(s, 10)`.  Strings are modelled as byte lists.
-/

/-- Embeds the digit loop of decimal rendering; the fuel argument only drives
structural recursion (`n` steps always suffice). The result is little-endian. -/
def digitsAux : ℕ → ℕ → List ℕ
  | 0, _ => []
  | fuel + 1, n => if n = 0 then [] else n % 10 :: digitsAux fuel (n / 10)

/-- Embeds JavaScript `String(n)` for a natural number: its decimal digit
characters as ASCII codes. -/
def decimalRepr (n : ℕ) : List ℕ :=
  if n = 0 then [48] else (digitsAux n n).reverse.map (fun d => d + 48)

/-- ASCII decimal digit test. -/
def isDigitCode (c : ℕ) : Bool := decide (48 ≤ c) && decide (c ≤ 57)

/-- Embeds JavaScript `parseInt(s, 10)` on the canonical decimal strings this
handler writes into connection metadata with `String(...)`; `none` models NaN
(a string without digits). -/
def parseIntJs (s : List ℕ) : Option ℕ :=
  if s ≠ [] ∧ s.all isDigitCode = true then
    some (s.foldl (fun acc c => acc * 10 + (c - 48)) 0)
  else none

theorem digitsAux_foldr : ∀ (fuel n : ℕ), n ≤ fuel →
    List.foldr (fun d acc => acc * 10 + d) 0 (digitsAux fuel n) = n := by
  intro fuel
  induction fuel with
  | zero =>
    intro n hn
    have h0 : n = 0 := Nat.le_zero.mp hn
    subst h0
    simp [digitsAux]
  | succ fuel ih =>
    intro n hn
    by_cases h0 : n = 0
    · subst h0
      simp [digitsAux]
    · have hrec : n / 10 ≤ fuel := by
        have : n / 10 < n := Nat.div_lt_self (by omega) (by omega)
        omega
      simp only [digitsAux, if_neg h0, List.foldr_cons, ih (n / 10) hrec]
      omega

theorem digitsAux_lt : ∀ (fuel n : ℕ), ∀ d ∈ digitsAux fuel n, d < 10 := by
  intro fuel
  induction fuel with
  | zero =>
    intro n d hd
    simp [digitsAux] at hd
  | succ fuel ih =>
    intro n d hd
    by_cases h0 : n = 0
    · subst h0
      simp [digitsAux] at hd
    · simp only [digitsAux, if_neg h0, List.mem_cons] at hd
      rcases hd with h | h
      · omega
      · exact ih (n / 10) d h

theorem digitsAux_ne_nil (fuel n : ℕ) (h0 : n ≠ 0) (hf : fuel ≠ 0) :
    digitsAux fuel n ≠ [] := by
  cases fuel with
  | zero => exact absurd rfl hf
  | succ m => simp [digitsAux, h0]

theorem decimalRepr_ne_nil (n : ℕ) : decimalRepr n ≠ [] := by
  by_cases h0 : n = 0
  · subst h0
    simp [decimalRepr]
  · simp only [decimalRepr, if_neg h0]
    have h := digitsAux_ne_nil n n h0 h0
    simp [h]

theorem parseIntJs_decimalRepr (n : ℕ) : parseIntJs (decimalRepr n) = some n := by
  by_cases h0 : n = 0
  · subst h0
    decide
  · simp only [decimalRepr, if_neg h0]
    have hall := digitsAux_lt n n
    have hfold := digitsAux_foldr n n (Nat.le_refl n)
    have hne := digitsAux_ne_nil n n h0 h0
    rw [parseIntJs, if_pos]
    · simp only [Option.some.injEq]
      rw [List.foldl_map, List.foldl_reverse]
      simp only [Nat.add_sub_cancel]
      exact hfold
    · constructor
      · simp [hne]
      · rw [List.all_eq_true]
        intro c hc
        simp only [List.mem_map, List.mem_reverse] at hc
        obtain ⟨d, hd, hcd⟩ := hc
        have := hall d hd
        subst hcd
        simp [isDigitCode]
        omega

/-!
Session handler (`makeYjsHandler`) modelled as a per-request state machine.
One invocation sees the connection metadata the gateway carried over, the
backends, and a batch of frames.  Backend outcomes are supplied by a
`HandlerEnv` (an `Except.error` models a rejected call that the handler
catches and logs).
-/

/-- Connection metadata (`wsContext.meta`) fields the handler reads and
writes; values are the strings the gateway persists across requests. -/
structure WsMeta where
  clientId : Option (List ℕ)
  clientClock : Option (List ℕ)

/-- JavaScript truthiness of a metadata lookup: missing and empty strings are
falsy. -/
def jsTruthy : Option (List ℕ) → Bool
  | none => false
  | some s => !s.isEmpty

/-- Handler-visible state of one connection and its document: connection
metadata, the awareness-store rows for the document, updates accepted by the
persistence provider, frames sent to this client, frames published to the
document channel, and whether the connection was closed. -/
structure HandlerState where
  meta : WsMeta
  awareness : List (ℕ × List ℕ)
  storedUpdates : List (List ℕ)
  sent : List (List ℕ)
  broadcasts : List (List ℕ)
  closed : Bool

/-- Which optional providers are configured and how each backend call turns
out during this invocation. -/
structure HandlerEnv where
  hasPersistence : Bool
  hasAwareness : Bool
  getStateResult : Except Unit (Option (List ℕ))
  storeUpdateOk : Bool
  getAllResult : Except Unit (List (List ℕ))
  awSetOk : Bool
  awRemoveOk : Bool

/-- Embeds `awarenessStore.remove` on one document's rows. -/
def removeAwareness (store : List (ℕ × List ℕ)) (clientId : ℕ) :
    List (ℕ × List ℕ) :=
  store.filter (fun e => e.1 != clientId)

/-- Embeds `awarenessStore.set` on one document's rows (upsert keyed by client
id). -/
def setAwareness (store : List (ℕ × List ℕ)) (clientId : ℕ) (blob : List ℕ) :
    List (ℕ × List ℕ) :=
  removeAwareness store clientId ++ [(clientId, blob)]

/-- Embeds the metadata writes after a successful `awarenessStore.set`: bind
`client-id` only while unset (JS falsy check on `meta`, not `origMeta`), then
refresh `client-clock` whenever the entry's id equals the bound id. -/
def bindClientMeta (meta : WsMeta) (clientId clock : ℕ) : WsMeta :=
  let m1 := if !jsTruthy meta.clientId then
      { meta with clientId := some (decimalRepr clientId) }
    else meta
  if m1.clientId = some (decimalRepr clientId) then
    { m1 with clientClock := some (decimalRepr clock) }
  else m1

/-- Embeds the for-loop over parsed awareness entries (all inside one
try/catch): a null entry removes the client from the store, any other entry
upserts the raw payload and updates the metadata; a rejected store call throws
and aborts the rest of the loop (the catch only logs). -/
def awarenessLoop (env : HandlerEnv) (awarenessUpdate : List ℕ) :
    List AwarenessEntry → HandlerState → HandlerState
  | [], st => st
  | e :: rest, st =>
    if e.isNull then
      if env.awRemoveOk then
        awarenessLoop env awarenessUpdate rest
          { st with awareness := removeAwareness st.awareness e.clientId }
      else st
    else
      if env.awSetOk then
        awarenessLoop env awarenessUpdate rest
          { st with awareness := setAwareness st.awareness e.clientId awarenessUpdate,
                    meta := bindClientMeta st.meta e.clientId e.clock }
      else st

/-- Embeds one iteration body of the `while (wsContext.canRecv())` loop for a
received frame (the body runs in one try/catch, so any decode error leaves the
state unchanged and processing continues with the next frame). -/
def processMessage (env : HandlerEnv) (st : HandlerState) (message : List ℕ) :
    HandlerState :=
  match readVarUint message with
  | none => st
  | some (messageType, afterType) =>
    if messageType = messageSync then
      match readVarUint afterType with
      | none => st
      | some (syncType, afterSync) =>
        if syncType = messageYjsSyncStep1 then
          match readVarUint8Array afterSync with
          | none => st
          | some _ =>
            if env.hasPersistence then
              match env.getStateResult with
              | .error _ => st
              | .ok none => st
              | .ok (some state) =>
                if 0 < state.length then
                  { st with sent := st.sent ++ [encodeSyncStep2 state] }
                else st
            else st
        else if syncType = messageYjsSyncStep2 ∨ syncType = messageYjsUpdate then
          match readVarUint8Array afterSync with
          | none => st
          | some (update, _) =>
            let st1 :=
              if env.hasPersistence ∧ 0 < update.length then
                if env.storeUpdateOk then
                  { st with storedUpdates := st.storedUpdates ++ [update] }
                else st
              else st
            { st1 with broadcasts := st1.broadcasts ++ [message] }
        else st
    else if messageType = messageAwareness then
      match readVarUint8Array afterType with
      | none => st
      | some (awarenessUpdate, _) =>
        let st1 :=
          if env.hasAwareness then
            match parseAwarenessUpdate awarenessUpdate with
            | none => st
            | some clients => awarenessLoop env awarenessUpdate clients st
          else st
        { st1 with broadcasts := st1.broadcasts ++ [message] }
    else if messageType = messageQueryAwareness then
      { st with broadcasts := st.broadcasts ++ [message] }
    else st

/-- Embeds the receive loop over one request's batch of frames: every frame is
processed in order. -/
def processBatch (env : HandlerEnv) (st : HandlerState) :
    List (List ℕ) → HandlerState
  | [] => st
  | m :: ms => processBatch env (processMessage env st m) ms

/-- Embeds the `wsContext.isOpening()` block: always send step1 with the empty
state vector, then the persisted state as step2 when the configured provider
returns a non-empty one, then every stored awareness entry as an awareness
frame (errors from either backend are caught and only logged). -/
def onOpen (env : HandlerEnv) (st : HandlerState) : HandlerState :=
  let st1 := { st with sent := st.sent ++ [encodeSyncStep1 emptyStateVector] }
  let st2 :=
    if env.hasPersistence then
      match env.getStateResult with
      | .error _ => st1
      | .ok none => st1
      | .ok (some state) =>
        if 0 < state.length then
          { st1 with sent := st1.sent ++ [encodeSyncStep2 state] }
        else st1
    else st1
  if env.hasAwareness then
    match env.getAllResult with
    | .error _ => st2
    | .ok states => { st2 with sent := st2.sent ++ states.map encodeAwarenessMessage }
  else st2

/-- Embeds the connection-closed branch (`rawMessage === null`): read both
metadata fields; when both are truthy and both parse to numbers, remove that
client's awareness row (when a store is configured; a rejected remove is
caught) and broadcast the synthesized disconnect frame; finally close. -/
def onClose (env : HandlerEnv) (st : HandlerState) : HandlerState :=
  let st1 :=
    if jsTruthy st.meta.clientId && jsTruthy st.meta.clientClock then
      match parseIntJs (st.meta.clientId.getD []),
            parseIntJs (st.meta.clientClock.getD []) with
      | some clientId, some clock =>
        let st2 :=
          if env.hasAwareness then
            if env.awRemoveOk then
              { st with awareness := removeAwareness st.awareness clientId }
            else st
          else st
        { st2 with broadcasts :=
            st2.broadcasts ++ [encodeDisconnectAwareness clientId clock] }
      | _, _ => st
    else st
  { st1 with closed := true }

/-- Inbound sync frame with a payload, as clients build them (same shape as
`encodeSyncStep2` but with the sub-type a parameter, covering step2 and
update). -/
def syncFrame (syncType : ℕ) (payload : List ℕ) : List ℕ :=
  writeVarUint messageSync ++ writeVarUint syncType ++ writeVarUint8Array payload

theorem readVarUint8Array_write_nil (b : List ℕ) :
    readVarUint8Array (writeVarUint8Array b) = some (b, []) := by
  have h := readVarUint8Array_writeVarUint8Array b []
  rwa [List.append_nil] at h

theorem processMessage_step1 (env : HandlerEnv) (st : HandlerState) (sv : List ℕ) :
    processMessage env st (encodeSyncStep1 sv) =
      (if env.hasPersistence then
        match env.getStateResult with
        | .error _ => st
        | .ok none => st
        | .ok (some state) =>
          if 0 < state.length then { st with sent := st.sent ++ [encodeSyncStep2 state] }
          else st
      else st) := by
  simp only [processMessage, encodeSyncStep1, List.append_assoc,
    readVarUint_writeVarUint, readVarUint8Array_write_nil, eq_self_iff_true,
    if_true]

/-- C3: on a fresh connection whose persistence provider returns non-empty
state `S` and whose awareness store holds exactly the entry `P`, the frames
sent are, in order: step1 wrapping the empty state-vector sentinel, step2
wrapping `S`, and an awareness frame wrapping `P`. -/
theorem handshake_ordering (env : HandlerEnv) (st : HandlerState) (S P : List ℕ)
    (hp : env.hasPersistence = true)
    (hgs : env.getStateResult = .ok (some S))
    (hne : 0 < S.length)
    (ha : env.hasAwareness = true)
    (hga : env.getAllResult = .ok [P])
    (h0 : st.sent = []) :
    (onOpen env st).sent =
      [encodeSyncStep1 emptyStateVector, encodeSyncStep2 S,
        encodeAwarenessMessage P] := by
  simp [onOpen, hp, hgs, hne, ha, hga, h0]

/-- Sample fully-configured environment: persisted state `[1, 2]`, one stored
awareness blob `[3]`, every backend call succeeding. -/
def envAllOk : HandlerEnv := ⟨true, true, .ok (some [1, 2]), true, .ok [[3]], true, true⟩

/-- Sample connection state with nothing recorded yet. -/
def stEmpty : HandlerState := ⟨⟨none, none⟩, [], [], [], [], false⟩

/-- Witness for `handshake_ordering` on the sample environment. -/
theorem handshake_ordering_witness :
    envAllOk.hasPersistence = true ∧
    envAllOk.getStateResult = .ok (some [1, 2]) ∧
    0 < ([1, 2] : List ℕ).length ∧
    envAllOk.hasAwareness = true ∧
    envAllOk.getAllResult = .ok [[3]] ∧
    stEmpty.sent = [] ∧
    (onOpen envAllOk stEmpty).sent =
      [encodeSyncStep1 emptyStateVector, encodeSyncStep2 [1, 2],
        encodeAwarenessMessage [3]] :=
  ⟨rfl, rfl, by decide, rfl, rfl, rfl,
    handshake_ordering envAllOk stEmpty [1, 2] [3] rfl rfl (by decide) rfl rfl rfl⟩

/-- C9: the reply to a well-formed step1 frame does not depend on the
client-supplied state vector — the whole handler state after processing is
identical for any two state vectors; the reply is the full persisted state as
one step2 frame when that state exists and is non-empty, and nothing changes
otherwise. -/
theorem step1_ignores_state_vector :
    (∀ (env : HandlerEnv) (st : HandlerState) (sv1 sv2 : List ℕ),
      processMessage env st (encodeSyncStep1 sv1) =
        processMessage env st (encodeSyncStep1 sv2)) ∧
    (∀ (env : HandlerEnv) (st : HandlerState) (sv S : List ℕ),
      env.hasPersistence = true → env.getStateResult = .ok (some S) →
      0 < S.length →
      processMessage env st (encodeSyncStep1 sv) =
        { st with sent := st.sent ++ [encodeSyncStep2 S] }) ∧
    (∀ (env : HandlerEnv) (st : HandlerState) (sv : List ℕ),
      ¬ (env.hasPersistence = true ∧
          ∃ S, env.getStateResult = .ok (some S) ∧ 0 < S.length) →
      processMessage env st (encodeSyncStep1 sv) = st) := by
  refine ⟨?_, ?_, ?_⟩
  · intro env st sv1 sv2
    rw [processMessage_step1, processMessage_step1]
  · intro env st sv S hp hgs hlen
    rw [processMessage_step1]
    simp [hp, hgs, hlen]
  · intro env st sv hns
    rw [processMessage_step1]
    by_cases hp : env.hasPersistence = true
    · cases hgs : env.getStateResult with
      | error e => simp [hp, hgs]
      | ok os =>
        cases os with
        | none => simp [hp, hgs]
        | some S =>
          have hlen : ¬ 0 < S.length := fun hl => hns ⟨hp, S, hgs, hl⟩
          simp [hp, hgs, hlen]
    · have hp' : env.hasPersistence = false := by
        revert hp
        cases env.hasPersistence <;> simp
      simp [hp']

/-- Witness for `step1_ignores_state_vector`: concrete state vectors `[0]` and
`[5]` on the sample environment. -/
theorem step1_ignores_state_vector_witness :
    processMessage envAllOk stEmpty (encodeSyncStep1 [0]) =
      processMessage envAllOk stEmpty (encodeSyncStep1 [5]) ∧
    (envAllOk.hasPersistence = true ∧
      envAllOk.getStateResult = .ok (some [1, 2]) ∧ 0 < ([1, 2] : List ℕ).length) ∧
    processMessage envAllOk stEmpty (encodeSyncStep1 [0]) =
      { stEmpty with sent := stEmpty.sent ++ [encodeSyncStep2 [1, 2]] } :=
  ⟨step1_ignores_state_vector.1 envAllOk stEmpty [0] [5],
    ⟨rfl, rfl, by decide⟩,
    step1_ignores_state_vector.2.1 envAllOk stEmpty [0] [1, 2] rfl rfl (by decide)⟩

theorem processMessage_sync_update_eq (env : HandlerEnv) (st : HandlerState)
    (ty : ℕ) (u : List ℕ)
    (hty : ty = messageYjsSyncStep2 ∨ ty = messageYjsUpdate) :
    processMessage env st (syncFrame ty u) =
      { st with
        storedUpdates := st.storedUpdates ++
          (if env.hasPersistence = true ∧ 0 < u.length ∧ env.storeUpdateOk = true
           then [u] else []),
        broadcasts := st.broadcasts ++ [syncFrame ty u] } := by
  by_cases hc : env.hasPersistence = true ∧ 0 < u.length
  · by_cases hsk : env.storeUpdateOk = true
    · rcases hty with h | h <;> subst h <;>
        simp [processMessage, syncFrame, List.append_assoc, readVarUint_writeVarUint,
          readVarUint8Array_write_nil, messageSync, messageYjsSyncStep1,
          messageYjsSyncStep2, messageYjsUpdate, messageAwareness,
          messageQueryAwareness, hc.1, hc.2, hsk]
    · rw [Bool.not_eq_true] at hsk
      rcases hty with h | h <;> subst h <;>
        simp [processMessage, syncFrame, List.append_assoc, readVarUint_writeVarUint,
          readVarUint8Array_write_nil, messageSync, messageYjsSyncStep1,
          messageYjsSyncStep2, messageYjsUpdate, messageAwareness,
          messageQueryAwareness, hc.1, hc.2, hsk]
  · have hc2 : ¬ (env.hasPersistence = true ∧ 0 < u.length ∧
        env.storeUpdateOk = true) := fun h => hc ⟨h.1, h.2.1⟩
    rcases hty with h | h <;> subst h <;>
      simp [processMessage, syncFrame, List.append_assoc, readVarUint_writeVarUint,
        readVarUint8Array_write_nil, messageSync, messageYjsSyncStep1,
        messageYjsSyncStep2, messageYjsUpdate, messageAwareness,
        messageQueryAwareness, hc, hc2]

theorem awarenessLoop_closed (env : HandlerEnv) (aw : List ℕ) :
    ∀ (es : List AwarenessEntry) (st : HandlerState),
      (awarenessLoop env aw es st).closed = st.closed := by
  intro es
  induction es with
  | nil => intro st; rfl
  | cons e rest ih =>
    intro st
    rw [awarenessLoop]
    by_cases hn : e.isNull = true
    · rw [if_pos hn]
      by_cases hr : env.awRemoveOk = true
      · rw [if_pos hr, ih]
      · rw [if_neg hr]
    · rw [if_neg hn]
      by_cases hs : env.awSetOk = true
      · rw [if_pos hs, ih]
      · rw [if_neg hs]

theorem processMessage_closed (env : HandlerEnv) (st : HandlerState) (m : List ℕ) :
    (processMessage env st m).closed = st.closed := by
  simp only [processMessage]
  repeat' split
  all_goals simp [awarenessLoop_closed]

theorem processBatch_eq_foldl (env : HandlerEnv) :
    ∀ (ms : List (List ℕ)) (st : HandlerState),
      processBatch env st ms = ms.foldl (processMessage env) st := by
  intro ms
  induction ms with
  | nil => intro st; rfl
  | cons m ms ih =>
    intro st
    rw [processBatch, List.foldl_cons, ih]

theorem processBatch_closed (env : HandlerEnv) :
    ∀ (ms : List (List ℕ)) (st : HandlerState),
      (processBatch env st ms).closed = st.closed := by
  intro ms
  induction ms with
  | nil => intro st; rfl
  | cons m ms ih =>
    intro st
    rw [processBatch, ih, processMessage_closed]

/-- C10: an inbound step2/update frame whose decoded payload is empty is never
handed to `storeUpdate`, but the raw frame is still broadcast verbatim. -/
theorem empty_update_broadcast_only (env : HandlerEnv) (st : HandlerState) (ty : ℕ)
    (hty : ty = messageYjsSyncStep2 ∨ ty = messageYjsUpdate) :
    processMessage env st (syncFrame ty []) =
      { st with broadcasts := st.broadcasts ++ [syncFrame ty []] } := by
  rw [processMessage_sync_update_eq env st ty [] hty]
  simp

/-- Witness for `empty_update_broadcast_only` with a concrete empty update
frame. -/
theorem empty_update_broadcast_only_witness :
    (messageYjsUpdate = messageYjsSyncStep2 ∨ messageYjsUpdate = messageYjsUpdate) ∧
    processMessage envAllOk stEmpty (syncFrame messageYjsUpdate []) =
      { stEmpty with
        broadcasts := stEmpty.broadcasts ++ [syncFrame messageYjsUpdate []] } :=
  ⟨Or.inr rfl, empty_update_broadcast_only envAllOk stEmpty messageYjsUpdate (Or.inr rfl)⟩

/-- C7: a failing `storeUpdate` is contained — the handler state changes only
by broadcasting the raw frame verbatim; moreover no per-message error ever
closes the connection, and the batch loop processes every frame in order. -/
theorem storage_error_contained :
    (∀ (env : HandlerEnv) (st : HandlerState) (ty : ℕ) (u : List ℕ),
      ty = messageYjsSyncStep2 ∨ ty = messageYjsUpdate →
      env.storeUpdateOk = false →
      processMessage env st (syncFrame ty u) =
        { st with broadcasts := st.broadcasts ++ [syncFrame ty u] }) ∧
    (∀ (env : HandlerEnv) (st : HandlerState) (ms : List (List ℕ)),
      (processBatch env st ms).closed = st.closed) ∧
    (∀ (env : HandlerEnv) (st : HandlerState) (ms : List (List ℕ)),
      processBatch env st ms = ms.foldl (processMessage env) st) := by
  refine ⟨?_, ?_, ?_⟩
  · intro env st ty u hty hfail
    rw [processMessage_sync_update_eq env st ty u hty]
    simp [hfail]
  · intro env st ms
    exact processBatch_closed env ms st
  · intro env st ms
    exact processBatch_eq_foldl env ms st

/-- Sample environment whose `storeUpdate` call fails. -/
def envStoreFail : HandlerEnv :=
  ⟨true, true, .ok (some [1, 2]), false, .ok [[3]], true, true⟩

/-- Witness for `storage_error_contained` with a concrete failing update. -/
theorem storage_error_contained_witness :
    (messageYjsUpdate = messageYjsSyncStep2 ∨ messageYjsUpdate = messageYjsUpdate) ∧
    envStoreFail.storeUpdateOk = false ∧
    processMessage envStoreFail stEmpty (syncFrame messageYjsUpdate [9]) =
      { stEmpty with
        broadcasts := stEmpty.broadcasts ++ [syncFrame messageYjsUpdate [9]] } ∧
    (processBatch envStoreFail stEmpty [syncFrame messageYjsUpdate [9]]).closed =
      stEmpty.closed :=
  ⟨Or.inr rfl, rfl,
    storage_error_contained.1 envStoreFail stEmpty messageYjsUpdate [9] (Or.inr rfl) rfl,
    storage_error_contained.2.1 envStoreFail stEmpty [syncFrame messageYjsUpdate [9]]⟩

theorem jsTruthy_some_of_ne_nil (s : List ℕ) (h : s ≠ []) :
    jsTruthy (some s) = true := by
  cases s with
  | nil => exact absurd rfl h
  | cons a l => rfl

theorem jsTruthy_decimalRepr (n : ℕ) : jsTruthy (some (decimalRepr n)) = true :=
  jsTruthy_some_of_ne_nil _ (decimalRepr_ne_nil n)

/-- C4: when the connection metadata holds both `client-id` and `client-clock`
as the canonical numeric strings for `c` and `k`, the close path removes the
awareness row for `c` and broadcasts the synthesized removal frame, which
decodes to exactly one entry with clock `k + 1` and the removal marker; when
either metadata field is absent, nothing is broadcast. -/
theorem disconnect_broadcast :
    (∀ (env : HandlerEnv) (st : HandlerState) (c k : ℕ),
      st.meta.clientId = some (decimalRepr c) →
      st.meta.clientClock = some (decimalRepr k) →
      env.hasAwareness = true → env.awRemoveOk = true →
      (onClose env st).awareness = removeAwareness st.awareness c ∧
      (onClose env st).broadcasts =
        st.broadcasts ++ [encodeDisconnectAwareness c k] ∧
      decodeAwarenessFrame (encodeDisconnectAwareness c k) =
        some [⟨c, k + 1, true⟩]) ∧
    (∀ (env : HandlerEnv) (st : HandlerState),
      st.meta.clientId = none ∨ st.meta.clientClock = none →
      (onClose env st).broadcasts = st.broadcasts) := by
  constructor
  · intro env st c k hcid hclk ha hr
    have h1 : jsTruthy st.meta.clientId = true := by
      rw [hcid]; exact jsTruthy_decimalRepr c
    have h2 : jsTruthy st.meta.clientClock = true := by
      rw [hclk]; exact jsTruthy_decimalRepr k
    refine ⟨?_, ?_, decodeAwarenessFrame_encodeDisconnectAwareness c k⟩ <;>
      simp [onClose, h1, h2, hcid, hclk, parseIntJs_decimalRepr, ha, hr,
        jsTruthy_decimalRepr]
  · intro env st h
    rcases h with h | h <;> simp [onClose, h, jsTruthy]

/-- Sample connection state after a presence update from client 42 with
clock 1. -/
def stC4 : HandlerState :=
  ⟨⟨some (decimalRepr 42), some (decimalRepr 1)⟩, [(42, [9])], [], [], [], false⟩

/-- Witness for `disconnect_broadcast` on the spec's scenario (client 42,
clock 1). -/
theorem disconnect_broadcast_witness :
    (stC4.meta.clientId = some (decimalRepr 42) ∧
      stC4.meta.clientClock = some (decimalRepr 1) ∧
      envAllOk.hasAwareness = true ∧ envAllOk.awRemoveOk = true ∧
      (onClose envAllOk stC4).awareness = removeAwareness stC4.awareness 42 ∧
      (onClose envAllOk stC4).broadcasts =
        stC4.broadcasts ++ [encodeDisconnectAwareness 42 1] ∧
      decodeAwarenessFrame (encodeDisconnectAwareness 42 1) =
        some [⟨42, 2, true⟩]) ∧
    (stEmpty.meta.clientId = none ∨ stEmpty.meta.clientClock = none) ∧
    (onClose envAllOk stEmpty).broadcasts = stEmpty.broadcasts := by
  have h := disconnect_broadcast.1 envAllOk stC4 42 1 rfl rfl rfl rfl
  exact ⟨⟨rfl, rfl, rfl, rfl, h.1, h.2.1, h.2.2⟩, Or.inl rfl,
    disconnect_broadcast.2 envAllOk stEmpty (Or.inl rfl)⟩

theorem bindClientMeta_clientId_of_truthy (m : WsMeta) (cid clk : ℕ)
    (h : jsTruthy m.clientId = true) :
    (bindClientMeta m cid clk).clientId = m.clientId := by
  by_cases h2 : m.clientId = some (decimalRepr cid) <;>
    simp [bindClientMeta, h, h2, jsTruthy_decimalRepr]

theorem awarenessLoop_clientId_preserved (env : HandlerEnv) (aw : List ℕ) :
    ∀ (es : List AwarenessEntry) (st : HandlerState) (s : List ℕ),
      s ≠ [] → st.meta.clientId = some s →
      (awarenessLoop env aw es st).meta.clientId = some s := by
  intro es
  induction es with
  | nil => intro st s _ hid; exact hid
  | cons e rest ih =>
    intro st s hs hid
    rw [awarenessLoop]
    by_cases hn : e.isNull = true
    · rw [if_pos hn]
      by_cases hr : env.awRemoveOk = true
      · rw [if_pos hr]
        exact ih _ s hs hid
      · rw [if_neg hr]; exact hid
    · rw [if_neg hn]
      by_cases hsk : env.awSetOk = true
      · rw [if_pos hsk]
        apply ih _ s hs
        show (bindClientMeta st.meta e.clientId e.clock).clientId = some s
        have ht : jsTruthy st.meta.clientId = true := by
          rw [hid]; exact jsTruthy_some_of_ne_nil s hs
        rw [bindClientMeta_clientId_of_truthy st.meta e.clientId e.clock ht, hid]
      · rw [if_neg hsk]; exact hid

theorem processMessage_clientId_preserved (env : HandlerEnv) (st : HandlerState)
    (m : List ℕ) (s : List ℕ) (hs : s ≠ []) (hid : st.meta.clientId = some s) :
    (processMessage env st m).meta.clientId = some s := by
  simp only [processMessage]
  repeat' split
  all_goals
    first
      | exact hid
      | (show (awarenessLoop env _ _ st).meta.clientId = some s
         exact awarenessLoop_clientId_preserved env _ _ st s hs hid)

theorem processBatch_clientId_preserved (env : HandlerEnv) :
    ∀ (ms : List (List ℕ)) (st : HandlerState) (s : List ℕ),
      s ≠ [] → st.meta.clientId = some s →
      (processBatch env st ms).meta.clientId = some s := by
  intro ms
  induction ms with
  | nil => intro st s _ hid; exact hid
  | cons m ms ih =>
    intro st s hs hid
    rw [processBatch]
    exact ih _ s hs (processMessage_clientId_preserved env st m s hs hid)

theorem awarenessLoop_binds_first (env : HandlerEnv) (aw : List ℕ)
    (hset : env.awSetOk = true) (hrem : env.awRemoveOk = true) :
    ∀ (es : List AwarenessEntry) (st : HandlerState) (e : AwarenessEntry),
      jsTruthy st.meta.clientId = false →
      es.find? (fun x => !x.isNull) = some e →
      (awarenessLoop env aw es st).meta.clientId = some (decimalRepr e.clientId) := by
  intro es
  induction es with
  | nil => intro st e _ hf; simp at hf
  | cons x rest ih =>
    intro st e hun hf
    rw [awarenessLoop]
    by_cases hn : x.isNull = true
    · have hf' : rest.find? (fun y => !y.isNull) = some e := by
        rwa [List.find?_cons_of_neg _ (by simp [hn])] at hf
      rw [if_pos hn, if_pos hrem]
      exact ih _ e hun hf'
    · have hx : e = x := by
        rw [List.find?_cons_of_pos _ (by simp [hn])] at hf
        exact (Option.some.inj hf).symm
      subst hx
      rw [if_neg hn, if_pos hset]
      have hb : (bindClientMeta st.meta e.clientId e.clock).clientId =
          some (decimalRepr e.clientId) := by
        simp [bindClientMeta, hun]
      exact awarenessLoop_clientId_preserved env aw rest _ _
        (decimalRepr_ne_nil e.clientId) hb

theorem awarenessLoop_refreshes_clock (env : HandlerEnv) (aw : List ℕ)
    (hset : env.awSetOk = true) (st : HandlerState) (e : AwarenessEntry)
    (hn : e.isNull = false)
    (hid : st.meta.clientId = some (decimalRepr e.clientId)) :
    (awarenessLoop env aw [e] st).meta.clientClock = some (decimalRepr e.clock) := by
  rw [awarenessLoop]
  rw [if_neg (by simp [hn]), if_pos hset]
  show (bindClientMeta st.meta e.clientId e.clock).clientClock =
    some (decimalRepr e.clock)
  have ht : jsTruthy st.meta.clientId = true := by
    rw [hid]; exact jsTruthy_decimalRepr e.clientId
  simp [bindClientMeta, ht, hid, jsTruthy_decimalRepr]

/-- C8: `client-id` is written at most once — a bound non-empty value survives
every frame of any batch; while unbound, processing a list of awareness
entries binds it to the first non-removal entry's id; and `client-clock` is
refreshed to the entry's clock by a non-removal entry whose id equals the
bound id. -/
theorem client_id_bound_once :
    (∀ (env : HandlerEnv) (st : HandlerState) (ms : List (List ℕ)) (s : List ℕ),
      s ≠ [] → st.meta.clientId = some s →
      (processBatch env st ms).meta.clientId = some s) ∧
    (∀ (env : HandlerEnv) (aw : List ℕ) (es : List AwarenessEntry)
        (st : HandlerState) (e : AwarenessEntry),
      env.awSetOk = true → env.awRemoveOk = true →
      jsTruthy st.meta.clientId = false →
      es.find? (fun x => !x.isNull) = some e →
      (awarenessLoop env aw es st).meta.clientId = some (decimalRepr e.clientId)) ∧
    (∀ (env : HandlerEnv) (aw : List ℕ) (st : HandlerState) (e : AwarenessEntry),
      env.awSetOk = true → e.isNull = false →
      st.meta.clientId = some (decimalRepr e.clientId) →
      (awarenessLoop env aw [e] st).meta.clientClock = some (decimalRepr e.clock)) := by
  refine ⟨?_, ?_, ?_⟩
  · intro env st ms s hs hid
    exact processBatch_clientId_preserved env ms st s hs hid
  · intro env aw es st e hset hrem hun hf
    exact awarenessLoop_binds_first env aw hset hrem es st e hun hf
  · intro env aw st e hset hn hid
    exact awarenessLoop_refreshes_clock env aw hset st e hn hid

/-- Witness for `client_id_bound_once` on concrete entries and batches. -/
theorem client_id_bound_once_witness :
    (decimalRepr 42 ≠ [] ∧ stC4.meta.clientId = some (decimalRepr 42) ∧
      (processBatch envAllOk stC4 [syncFrame messageYjsUpdate [9]]).meta.clientId =
        some (decimalRepr 42)) ∧
    (envAllOk.awSetOk = true ∧ envAllOk.awRemoveOk = true ∧
      jsTruthy stEmpty.meta.clientId = false ∧
      ([⟨5, 1, false⟩] : List AwarenessEntry).find? (fun x => !x.isNull) =
        some ⟨5, 1, false⟩ ∧
      (awarenessLoop envAllOk [7] [⟨5, 1, false⟩] stEmpty).meta.clientId =
        some (decimalRepr 5)) ∧
    (envAllOk.awSetOk = true ∧ (⟨42, 7, false⟩ : AwarenessEntry).isNull = false ∧
      stC4.meta.clientId = some (decimalRepr 42) ∧
      (awarenessLoop envAllOk [8] [⟨42, 7, false⟩] stC4).meta.clientClock =
        some (decimalRepr 7)) :=
  ⟨⟨by decide, rfl,
      client_id_bound_once.1 envAllOk stC4 [syncFrame messageYjsUpdate [9]]
        (decimalRepr 42) (by decide) rfl⟩,
    ⟨rfl, rfl, rfl, rfl,
      client_id_bound_once.2.1 envAllOk [7] [⟨5, 1, false⟩] stEmpty ⟨5, 1, false⟩
        rfl rfl rfl rfl⟩,
    ⟨rfl, rfl, rfl,
      client_id_bound_once.2.2 envAllOk [8] stC4 ⟨42, 7, false⟩ rfl rfl rfl⟩⟩
